import Mathlib

/-!
Shallow embedding of the two executors of
`exec/process_stop.go` from the chaosblade-exec-os `exec` package:
the process-stop executor (`StopProcessExecutor`) and the file-append
executor (`FileAppendActionExecutor`).

Modelling choices:
* Each `Exec` is a pure function returning the produced `Response`
  together with the list of invocations of the channel `Run` method it
  performed, so that statements about the channel being invoked (or not)
  are expressible.
* The ambient host state read by the code — the global `util.Debug`
  flag, command availability (`channel.IsCommandAvailable`) and file
  existence (`util.IsExist`) — is passed in as an explicit `Env` value.
* Go strings are Lean `String`; a Go map lookup of a missing key yields
  the empty string, so the flag mapping is a total function defaulting
  to `""` at unset keys.
* Go library functions used by the source (`path.Join`, `strconv.Atoi`)
  are given executable Lean counterparts faithful to their documented
  semantics.
-/

namespace CB

/-- Modelled from the spec: the error taxonomy of response classes
(spec section 7) of the chaosblade-spec-go `spec.Code` table, whose
source is not part of this excerpt; the numeric codes are abstracted to
their classes, plus `ok` for successful downstream responses. -/
inductive CodeType where
  | ok
  | serverError
  | illegalParameters
  | commandNotFound
deriving DecidableEq

/-- Modelled from the spec: a `Response` is a success flag, a code class
and an error message (spec section 3: success/failure code plus message);
`spec.Response` itself is not part of this excerpt. -/
structure Response where
  success : Bool
  code : CodeType
  err : String
deriving DecidableEq

/-- Modelled from the spec: `spec.ReturnFail` builds a failure response
of the given class carrying the given message. -/
def ReturnFail (c : CodeType) (e : String) : Response :=
  ⟨false, c, e⟩

/-- Modelled from the spec: the execution context carries a marker
distinguishing destroy (reverse-fault) requests from create requests;
`spec.IsDestroy ctx` reports that marker (spec section 3). -/
structure Context where
  destroy : Bool
deriving DecidableEq

/-- The experiment model: a resolved mapping from flag name to string
value (`model.ActionFlags`). A flag that was not supplied reads as the
empty string, exactly as a Go map lookup of a missing key. -/
structure ExpModel where
  actionFlags : String → String

/-- One invocation of the channel `Run` method: the executable path and
the argument string handed to it. -/
structure RunCall where
  path : String
  args : String
deriving DecidableEq

/-- Modelled from the spec: the channel abstraction (spec section 6),
restricted to the two members the excerpt uses:
`GetScriptPath()` and `Run(context, executablePath, argumentString)`. -/
structure Channel where
  scriptPath : String
  run : Context → String → String → Response

/-- Host environment read by the executors: the global `util.Debug`
flag, host command availability and host file existence. -/
structure Env where
  debug : Bool
  commandAvailable : String → Bool
  fileExists : String → Bool

/-- Go `%t` formatting of a boolean. -/
def goBool (b : Bool) : String :=
  if b then "true" else "false"

/-- Modelled from the Go standard library: `strconv.Atoi`.
`none` stands for a non-nil Go error, covering both syntax errors
(empty string, sign with no digits, any non-digit character) and 64-bit
range errors. -/
def goAtoi (s : String) : Option Int :=
  match s.data with
  | [] => none
  | c :: cs =>
    let signed : Bool × List Char :=
      if c = '-' then (true, cs)
      else if c = '+' then (false, cs)
      else (false, c :: cs)
    let neg := signed.1
    let ds := signed.2
    if ds = [] then none
    else if ds.all Char.isDigit then
      let n : Nat := ds.foldl (fun acc d => acc * 10 + (d.toNat - '0'.toNat)) 0
      let v : Int := if neg then -(n : Int) else (n : Int)
      if v < -(2 ^ 63) ∨ 2 ^ 63 - 1 < v then none else some v
    else none

/-- Splits a character list at every slash into its components. -/
def splitSlash : List Char → List (List Char)
  | [] => [[]]
  | c :: t =>
    match splitSlash t with
    | [] => if c = '/' then [[], []] else [[c]]
    | h :: r => if c = '/' then [] :: h :: r else (c :: h) :: r

/-- Joins components with slashes. -/
def joinSlash : List (List Char) → List Char
  | [] => []
  | [x] => x
  | x :: y :: r => x ++ '/' :: joinSlash (y :: r)

/-- One step of lexical path cleaning: push a component on the (reversed)
stack, resolving a dot-dot component against the stack as Go
`path.Clean` does. -/
def cleanStep (rooted : Bool) (st : List (List Char)) (c : List Char) : List (List Char) :=
  if c = ['.', '.'] then
    match st with
    | h :: t => if h = ['.', '.'] then c :: h :: t else t
    | [] => if rooted then [] else [c]
  else c :: st

/-- Modelled from the Go standard library: `path.Clean`, the lexical
path simplification applied by `path.Join`. -/
def goPathClean (p : String) : String :=
  if p = "" then "."
  else
    let rooted : Bool := p.data.head? == some '/'
    let comps := (splitSlash p.data).filter (fun c => !c.isEmpty && c != ['.'])
    let stack := (comps.foldl (cleanStep rooted) []).reverse
    let out := (if rooted then ['/'] else []) ++ joinSlash stack
    if out = [] then "." else String.mk out

/-- Modelled from the Go standard library: `path.Join` on two elements:
empty elements are skipped, the rest are joined with a slash and the
result is cleaned; the join of two empty strings is empty. -/
def goPathJoin (a b : String) : String :=
  if a = "" ∧ b = "" then ""
  else if a = "" then goPathClean b
  else if b = "" then goPathClean a
  else goPathClean (a ++ "/" ++ b)

/-- Source line 30: the process-stop helper binary name. -/
def StopProcessBin : String := "chaos_stopprocess"

/-- Source line 164: the file-append helper binary name. -/
def AppendFileBin : String := "chaos_appendfile"

/-- The process-stop executor holds only its bound channel; a Go nil
channel is `none`. -/
structure StopProcessExecutor where
  channel : Option Channel

/-- Source lines 103-111: serialization of the validated process-stop
flags: the debug passthrough, then the selected matcher (`process`
wins over `process-cmd`), then the optional `ignore-not-found` switch. -/
def stopProcessFlags (debug : Bool) (process processCmd : String) (ignore : Bool) : String :=
  let flags := "--debug=" ++ goBool debug
  let flags :=
    if process ≠ "" then flags ++ (" --process \"" ++ (process ++ "\""))
    else if processCmd ≠ "" then flags ++ (" --process-cmd \"" ++ (processCmd ++ "\""))
    else flags
  if ignore then flags ++ (" --ignore-not-found=" ++ goBool ignore) else flags

/-- Source lines 120-123: `stopProcess` puts `--start` in front of the
flags and runs the stop-process binary under the channel script path. -/
def StopProcessExecutor.stopProcess (ch : Channel) (flags : String) (ctx : Context) :
    Response × List RunCall :=
  let f := "--start" ++ (" " ++ flags)
  let p := goPathJoin ch.scriptPath StopProcessBin
  (ch.run ctx p f, [⟨p, f⟩])

/-- Source lines 125-128: `recoverProcess` puts `--stop` in front of the
flags and runs the stop-process binary under the channel script path. -/
def StopProcessExecutor.recoverProcess (ch : Channel) (flags : String) (ctx : Context) :
    Response × List RunCall :=
  let f := "--stop" ++ (" " ++ flags)
  let p := goPathJoin ch.scriptPath StopProcessBin
  (ch.run ctx p f, [⟨p, f⟩])

/-- Source lines 93-118: `StopProcessExecutor.Exec`: nil-channel guard,
matcher validation, flag serialization, then the destroy/start branch. -/
def StopProcessExecutor.Exec (spe : StopProcessExecutor) (env : Env) (uid : String)
    (ctx : Context) (model : ExpModel) : Response × List RunCall :=
  match spe.channel with
  | none => (ReturnFail .serverError "channel is nil", [])
  | some ch =>
    let process := model.actionFlags "process"
    let processCmd := model.actionFlags "process-cmd"
    if process = "" ∧ processCmd = "" then
      (ReturnFail .illegalParameters "less process matcher", [])
    else
      let ignoreProcessNotFound := model.actionFlags "ignore-not-found" == "true"
      let flags := stopProcessFlags env.debug process processCmd ignoreProcessNotFound
      if ctx.destroy then
        StopProcessExecutor.recoverProcess ch flags ctx
      else
        StopProcessExecutor.stopProcess ch flags ctx

/-- The file-append executor holds only its bound channel. -/
structure FileAppendActionExecutor where
  channel : Option Channel

/-- Source lines 312-320: `checkAppendFileExpEnv` scans the required
helper commands in order and reports the first missing one. -/
def checkAppendFileExpEnv (env : Env) : Option String :=
  (["echo", "kill"].find? (fun c => ! env.commandAvailable c)).map
    (fun c => c ++ " command not found")

/-- Source lines 258-279: `count` and `interval` handling: an empty flag
keeps the default 1; otherwise the value must `Atoi`-parse to an integer
of at least 1, else the given IllegalParameters message results. -/
def parsePositive (s msg : String) : Except String Int :=
  if s = "" then .ok 1
  else
    match goAtoi s with
    | none => .error msg
    | some v => if v < 1 then .error msg else .ok v

/-- Source lines 293-299: serialization of the file-append start flags
in their fixed order: filepath, content, count, interval, the debug
passthrough, then the optional boolean switches. -/
def fileAppendStartFlags (debug : Bool) (filepath content : String) (count interval : Int)
    (escape enableBase64 : Bool) : String :=
  let flags := "--start" ++ (" --filepath \"" ++ (filepath ++ "\"")) ++
    (" --content \"" ++ (content ++ "\"")) ++ (" --count " ++ toString count) ++
    (" --interval " ++ toString interval) ++ (" --debug=" ++ goBool debug)
  let flags := if escape then flags ++ " --escape=true" else flags
  if enableBase64 then flags ++ " --enable-base64=true" else flags

/-- Source line 305: the file-append stop argument string. -/
def fileAppendStopArgs (debug : Bool) (filepath : String) : String :=
  "--stop" ++ (" " ++ ("--filepath " ++ filepath)) ++ (" --debug=" ++ goBool debug)

/-- Source lines 292-301: `FileAppendActionExecutor.start` runs the
append binary with the serialized start flags. -/
def FileAppendActionExecutor.start (ch : Channel) (env : Env) (filepath content : String)
    (count interval : Int) (escape enableBase64 : Bool) (ctx : Context) :
    Response × List RunCall :=
  let flags := fileAppendStartFlags env.debug filepath content count interval escape enableBase64
  let p := goPathJoin ch.scriptPath AppendFileBin
  (ch.run ctx p flags, [⟨p, flags⟩])

/-- Source lines 303-306: `FileAppendActionExecutor.stop` runs the
append binary with the stop argument string. -/
def FileAppendActionExecutor.stop (ch : Channel) (env : Env) (filepath : String)
    (ctx : Context) : Response × List RunCall :=
  let p := goPathJoin ch.scriptPath AppendFileBin
  let args := fileAppendStopArgs env.debug filepath
  (ch.run ctx p args, [⟨p, args⟩])

/-- Source lines 243-290: `FileAppendActionExecutor.Exec`: environment
check, nil-channel guard, the destroy branch, count/interval validation,
file-existence check, then delegation to `start`. -/
def FileAppendActionExecutor.Exec (f : FileAppendActionExecutor) (env : Env) (uid : String)
    (ctx : Context) (model : ExpModel) : Response × List RunCall :=
  match checkAppendFileExpEnv env with
  | some e => (ReturnFail .commandNotFound e, [])
  | none =>
    match f.channel with
    | none => (ReturnFail .serverError "channel is nil", [])
    | some ch =>
      let filepath := model.actionFlags "filepath"
      if ctx.destroy then
        FileAppendActionExecutor.stop ch env filepath ctx
      else
        let content := model.actionFlags "content"
        let countStr := model.actionFlags "count"
        let intervalStr := model.actionFlags "interval"
        match parsePositive countStr "--count value must be a positive integer" with
        | .error m => (ReturnFail .illegalParameters m, [])
        | .ok count =>
          match parsePositive intervalStr "--interval value must be a positive integer" with
          | .error m => (ReturnFail .illegalParameters m, [])
          | .ok interval =>
            let escape := model.actionFlags "escape" == "true"
            let enableBase64 := model.actionFlags "enable-base64" == "true"
            if ! env.fileExists filepath then
              (ReturnFail .illegalParameters ("the " ++ (filepath ++ " file does not exist")), [])
            else
              FileAppendActionExecutor.start ch env filepath content count interval
                escape enableBase64 ctx

/-! ## String containment infrastructure

Executable checkers for prefix and substring containment of strings,
with their characterizations, used to state the properties about the
constructed argument strings. -/

/-- Boolean test: the first character list starts the second. -/
def listHasPre : List Char → List Char → Bool
  | [], _ => true
  | _ :: _, [] => false
  | a :: m, b :: h => (a == b) && listHasPre m h

/-- Boolean test: the first character list occurs inside the second. -/
def listHasSub (m : List Char) : List Char → Bool
  | [] => listHasPre m []
  | c :: t => listHasPre m (c :: t) || listHasSub m t

theorem listHasPre_iff (m h : List Char) : listHasPre m h = true ↔ ∃ t, h = m ++ t := by
  induction m generalizing h with
  | nil => simp [listHasPre]
  | cons a m ih =>
    cases h with
    | nil => simp [listHasPre]
    | cons b h =>
      simp only [listHasPre, Bool.and_eq_true, beq_iff_eq, ih, List.cons_append,
        List.cons.injEq]
      constructor
      · rintro ⟨rfl, t, rfl⟩; exact ⟨t, rfl, rfl⟩
      · rintro ⟨t, rfl, rfl⟩; exact ⟨rfl, t, rfl⟩

theorem listHasSub_iff (m h : List Char) :
    listHasSub m h = true ↔ ∃ a b, h = a ++ (m ++ b) := by
  induction h with
  | nil =>
    rw [listHasSub, listHasPre_iff]
    constructor
    · rintro ⟨t, ht⟩; exact ⟨[], t, ht⟩
    · rintro ⟨a, b, hab⟩
      rcases List.append_eq_nil.mp hab.symm with ⟨rfl, h2⟩
      exact ⟨b, h2.symm⟩
  | cons c t ih =>
    rw [listHasSub, Bool.or_eq_true, listHasPre_iff, ih]
    constructor
    · rintro (⟨u, hu⟩ | ⟨a, b, hb⟩)
      · exact ⟨[], u, by simpa using hu⟩
      · exact ⟨c :: a, b, by simp [hb]⟩
    · rintro ⟨a, b, hab⟩
      cases a with
      | nil => exact Or.inl ⟨b, by simpa using hab⟩
      | cons x a2 =>
        simp only [List.cons_append, List.cons.injEq] at hab
        exact Or.inr ⟨a2, b, hab.2⟩

/-- The string `p` starts the string `s`. -/
@[reducible] def strHasPre (s p : String) : Prop := listHasPre p.data s.data = true

/-- The string `m` occurs somewhere inside the string `s`. -/
@[reducible] def strHasSub (s m : String) : Prop := listHasSub m.data s.data = true

theorem data_append (a b : String) : (a ++ b).data = a.data ++ b.data := rfl

theorem strExt {a b : String} (h : a.data = b.data) : a = b := by
  cases a; cases b; exact congrArg String.mk h

theorem strHasPre_of_eq {s p t : String} (h : s = p ++ t) : strHasPre s p := by
  rw [strHasPre, listHasPre_iff]
  exact ⟨t.data, by rw [h, data_append]⟩

theorem strHasSub_of_eq {s a m b : String} (h : s = a ++ (m ++ b)) : strHasSub s m := by
  rw [strHasSub, listHasSub_iff]
  exact ⟨a.data, b.data, by rw [h, data_append, data_append]⟩

theorem str_assoc (a b c : String) : a ++ b ++ c = a ++ (b ++ c) := by
  apply strExt
  simp [data_append, List.append_assoc]

/-! ## Concrete fixtures

Concrete channels, environments, contexts and flag mappings used as
explicit inputs of counterexamples and witnesses. -/

/-- A concrete channel whose run method echoes its invocation. -/
def chD : Channel :=
  ⟨"/opt/chaosblade/bin", fun _ p a => ⟨true, .ok, p ++ " " ++ a⟩⟩

/-- A host with every command available and every file existing,
debug off. -/
def envT : Env := ⟨false, fun _ => true, fun _ => true⟩

/-- A host with no command available, debug off. -/
def envNoCmd : Env := ⟨false, fun _ => false, fun _ => false⟩

/-- A host with every command available but no file existing,
debug off. -/
def envNoFile : Env := ⟨false, fun _ => true, fun _ => false⟩

/-- A non-destroy execution context. -/
def ctxStart : Context := ⟨false⟩

/-- A destroy execution context. -/
def ctxDestroy : Context := ⟨true⟩

/-- Builds a flag mapping from an association list; absent keys read as
the empty string like Go map lookups. -/
def flagMap (l : List (String × String)) : ExpModel :=
  ⟨fun k => ((l.find? (fun kv => kv.1 == k)).map Prod.snd).getD ""⟩

/-! ## Helper lemmas about validation -/

/-- Boolean test for a count or interval value the code rejects: a
non-empty string that Atoi fails on or that parses below 1. -/
def invalidPosInt (s : String) : Bool :=
  (s != "") && (match goAtoi s with | none => true | some v => v < 1)

theorem parsePositive_error {s : String} (msg : String) (h : invalidPosInt s = true) :
    parsePositive s msg = .error msg := by
  rw [invalidPosInt, Bool.and_eq_true] at h
  obtain ⟨hne, hbad⟩ := h
  rw [parsePositive, if_neg (by simpa using hne)]
  cases hg : goAtoi s with
  | none => rfl
  | some v =>
    rw [hg] at hbad
    simp only [decide_eq_true_eq] at hbad
    simp [hbad]

/-! ## Normal forms of the serialized argument strings -/

theorem strHasSub_self (m : String) : strHasSub m m := by
  rw [strHasSub, listHasSub_iff]
  exact ⟨[], [], by simp⟩

theorem strHasSub_appR {s m : String} (t : String) (h : strHasSub s m) :
    strHasSub (s ++ t) m := by
  rw [strHasSub, listHasSub_iff] at h ⊢
  obtain ⟨a, b, hab⟩ := h
  exact ⟨a, b ++ t.data, by rw [data_append, hab]; simp [List.append_assoc]⟩

theorem strHasSub_appL {s m : String} (t : String) (h : strHasSub s m) :
    strHasSub (t ++ s) m := by
  rw [strHasSub, listHasSub_iff] at h ⊢
  obtain ⟨a, b, hab⟩ := h
  exact ⟨t.data ++ a, b, by rw [data_append, hab]; simp [List.append_assoc]⟩

/-- The process-stop flags when the `process` matcher is present: the
debug passthrough, the quoted `process` matcher, then the optional
`ignore-not-found` modifier. -/
theorem stopProcessFlags_eq_pos (debug : Bool) (p pc : String) (ig : Bool) (hp : p ≠ "") :
    stopProcessFlags debug p pc ig =
      ("--debug=" ++ goBool debug) ++ ((" --process \"" ++ (p ++ "\"")) ++
        (if ig then " --ignore-not-found=" ++ goBool ig else "")) := by
  apply strExt
  cases ig <;> simp [stopProcessFlags, hp, data_append, List.append_assoc]

/-- The process-stop flags when only the `process-cmd` matcher is
present. -/
theorem stopProcessFlags_eq_cmd (debug : Bool) (p pc : String) (ig : Bool)
    (hp : p = "") (hpc : pc ≠ "") :
    stopProcessFlags debug p pc ig =
      ("--debug=" ++ goBool debug) ++ ((" --process-cmd \"" ++ (pc ++ "\"")) ++
        (if ig then " --ignore-not-found=" ++ goBool ig else "")) := by
  apply strExt
  cases ig <;> simp [stopProcessFlags, hp, hpc, data_append, List.append_assoc]

/-- The file-append start flags, fully right-associated. -/
theorem fileAppendStartFlags_eq (debug : Bool) (fp c : String) (cnt itv : Int)
    (esc b64 : Bool) :
    fileAppendStartFlags debug fp c cnt itv esc b64 =
      "--start" ++ ((" --filepath \"" ++ (fp ++ "\"")) ++ ((" --content \"" ++ (c ++ "\"")) ++
        ((" --count " ++ toString cnt) ++ ((" --interval " ++ toString itv) ++
          ((" --debug=" ++ goBool debug) ++ ((if esc then " --escape=true" else "") ++
            (if b64 then " --enable-base64=true" else ""))))))) := by
  apply strExt
  cases esc <;> cases b64 <;>
    simp [fileAppendStartFlags, data_append, List.append_assoc]

/-- The shape of a process-stop `Exec` on a passing start request. -/
theorem stopProcess_Exec_start (ch : Channel) (env : Env) (uid : String) (ctx : Context)
    (model : ExpModel) (hctx : ctx.destroy = false)
    (hv : ¬(model.actionFlags "process" = "" ∧ model.actionFlags "process-cmd" = "")) :
    StopProcessExecutor.Exec ⟨some ch⟩ env uid ctx model =
      (ch.run ctx (goPathJoin ch.scriptPath StopProcessBin)
        ("--start" ++ (" " ++ stopProcessFlags env.debug (model.actionFlags "process")
          (model.actionFlags "process-cmd") (model.actionFlags "ignore-not-found" == "true"))),
       [⟨goPathJoin ch.scriptPath StopProcessBin,
         "--start" ++ (" " ++ stopProcessFlags env.debug (model.actionFlags "process")
           (model.actionFlags "process-cmd")
           (model.actionFlags "ignore-not-found" == "true"))⟩]) := by
  simp [StopProcessExecutor.Exec, StopProcessExecutor.stopProcess, hv, hctx]

/-- The shape of a process-stop `Exec` on a passing destroy request. -/
theorem stopProcess_Exec_destroy (ch : Channel) (env : Env) (uid : String) (ctx : Context)
    (model : ExpModel) (hctx : ctx.destroy = true)
    (hv : ¬(model.actionFlags "process" = "" ∧ model.actionFlags "process-cmd" = "")) :
    StopProcessExecutor.Exec ⟨some ch⟩ env uid ctx model =
      (ch.run ctx (goPathJoin ch.scriptPath StopProcessBin)
        ("--stop" ++ (" " ++ stopProcessFlags env.debug (model.actionFlags "process")
          (model.actionFlags "process-cmd") (model.actionFlags "ignore-not-found" == "true"))),
       [⟨goPathJoin ch.scriptPath StopProcessBin,
         "--stop" ++ (" " ++ stopProcessFlags env.debug (model.actionFlags "process")
           (model.actionFlags "process-cmd")
           (model.actionFlags "ignore-not-found" == "true"))⟩]) := by
  simp [StopProcessExecutor.Exec, StopProcessExecutor.recoverProcess, hv, hctx]

/-- The shape of a file-append `Exec` on a destroy request that passed
the environment and channel checks. -/
theorem fileAppend_Exec_destroy (ch : Channel) (env : Env) (uid : String) (ctx : Context)
    (model : ExpModel) (henv : checkAppendFileExpEnv env = none)
    (hctx : ctx.destroy = true) :
    FileAppendActionExecutor.Exec ⟨some ch⟩ env uid ctx model =
      (ch.run ctx (goPathJoin ch.scriptPath AppendFileBin)
        (fileAppendStopArgs env.debug (model.actionFlags "filepath")),
       [⟨goPathJoin ch.scriptPath AppendFileBin,
         fileAppendStopArgs env.debug (model.actionFlags "filepath")⟩]) := by
  simp [FileAppendActionExecutor.Exec, FileAppendActionExecutor.stop, henv, hctx]

/-- The shape of a file-append `Exec` on a start request on which every
validation passes. -/
theorem fileAppend_Exec_start (ch : Channel) (env : Env) (uid : String) (ctx : Context)
    (model : ExpModel) (c i : Int) (henv : checkAppendFileExpEnv env = none)
    (hctx : ctx.destroy = false)
    (hcnt : parsePositive (model.actionFlags "count")
      "--count value must be a positive integer" = .ok c)
    (hint : parsePositive (model.actionFlags "interval")
      "--interval value must be a positive integer" = .ok i)
    (hfile : env.fileExists (model.actionFlags "filepath") = true) :
    FileAppendActionExecutor.Exec ⟨some ch⟩ env uid ctx model =
      (ch.run ctx (goPathJoin ch.scriptPath AppendFileBin)
        (fileAppendStartFlags env.debug (model.actionFlags "filepath")
          (model.actionFlags "content") c i (model.actionFlags "escape" == "true")
          (model.actionFlags "enable-base64" == "true")),
       [⟨goPathJoin ch.scriptPath AppendFileBin,
         fileAppendStartFlags env.debug (model.actionFlags "filepath")
           (model.actionFlags "content") c i (model.actionFlags "escape" == "true")
           (model.actionFlags "enable-base64" == "true")⟩]) := by
  simp [FileAppendActionExecutor.Exec, FileAppendActionExecutor.start, henv, hctx,
    hcnt, hint, hfile]

/-- The process-stop flags with the `process` matcher and the
`ignore-not-found` switch on. -/
theorem stopProcessFlags_pos_ignore (debug : Bool) (p pc : String) (hp : p ≠ "") :
    stopProcessFlags debug p pc true =
      ("--debug=" ++ goBool debug) ++ ((" --process \"" ++ (p ++ "\"")) ++
        " --ignore-not-found=true") := by
  have hm : (" --ignore-not-found=" : String) ++ goBool true = " --ignore-not-found=true" := by
    decide
  rw [stopProcessFlags_eq_pos debug p pc true hp, if_pos rfl, hm]

/-- The process-stop flags with the `process-cmd` matcher and the
`ignore-not-found` switch on. -/
theorem stopProcessFlags_cmd_ignore (debug : Bool) (p pc : String)
    (hp : p = "") (hpc : pc ≠ "") :
    stopProcessFlags debug p pc true =
      ("--debug=" ++ goBool debug) ++ ((" --process-cmd \"" ++ (pc ++ "\"")) ++
        " --ignore-not-found=true") := by
  have hm : (" --ignore-not-found=" : String) ++ goBool true = " --ignore-not-found=true" := by
    decide
  rw [stopProcessFlags_eq_cmd debug p pc true hp hpc, if_pos rfl, hm]

/-! ## Claim C1 -/

/-- C1 (counterexample): the claim fails as stated: a file-append `Exec`
with a nil bound channel on a host missing the `echo` command returns a
CommandNotFound failure, not a ServerError one, because the environment
check precedes the nil-channel guard. -/
theorem C1_counterexample :
    (FileAppendActionExecutor.Exec ⟨none⟩ envNoCmd "u" ctxStart (flagMap [])).1 =
      ReturnFail .commandNotFound "echo command not found" ∧
    CodeType.commandNotFound ≠ CodeType.serverError := by decide

/-- C1 (amended): with a nil bound channel, a process-stop `Exec`
returns the ServerError failure without invoking the channel for every
input; a file-append `Exec` does so for every input on which the
environment check passes, and returns the CommandNotFound failure
produced by that check otherwise. -/
theorem C1_nil_channel (env : Env) (uid : String) (ctx : Context) (model : ExpModel) :
    (StopProcessExecutor.Exec ⟨none⟩ env uid ctx model =
      (ReturnFail .serverError "channel is nil", [])) ∧
    (checkAppendFileExpEnv env = none →
      FileAppendActionExecutor.Exec ⟨none⟩ env uid ctx model =
        (ReturnFail .serverError "channel is nil", [])) ∧
    (∀ e, checkAppendFileExpEnv env = some e →
      FileAppendActionExecutor.Exec ⟨none⟩ env uid ctx model =
        (ReturnFail .commandNotFound e, [])) := by
  refine ⟨rfl, ?_, ?_⟩
  · intro h
    simp [FileAppendActionExecutor.Exec, h]
  · intro e h
    simp [FileAppendActionExecutor.Exec, h]

/-- C1 (witness): the amended statement at a concrete input. -/
theorem C1_witness :
    checkAppendFileExpEnv envT = none ∧
    FileAppendActionExecutor.Exec ⟨none⟩ envT "u" ctxStart (flagMap []) =
      (ReturnFail .serverError "channel is nil", []) :=
  ⟨by decide, (C1_nil_channel envT "u" ctxStart (flagMap [])).2.1 (by decide)⟩

/-! ## Claim C2 -/

/-- C2: a process-stop `Exec` with a non-nil channel whose `process` and
`process-cmd` flags are both empty returns the IllegalParameters failure
and the channel Run is never invoked. -/
theorem C2_no_matcher (ch : Channel) (env : Env) (uid : String) (ctx : Context)
    (model : ExpModel) (hp : model.actionFlags "process" = "")
    (hc : model.actionFlags "process-cmd" = "") :
    StopProcessExecutor.Exec ⟨some ch⟩ env uid ctx model =
      (ReturnFail .illegalParameters "less process matcher", []) := by
  simp [StopProcessExecutor.Exec, hp, hc]

/-- C2 (witness): the statement at a concrete input. -/
theorem C2_witness :
    (flagMap []).actionFlags "process" = "" ∧
    (flagMap []).actionFlags "process-cmd" = "" ∧
    StopProcessExecutor.Exec ⟨some chD⟩ envT "u" ctxStart (flagMap []) =
      (ReturnFail .illegalParameters "less process matcher", []) :=
  ⟨rfl, rfl, C2_no_matcher chD envT "u" ctxStart (flagMap []) rfl rfl⟩

/-! ## Claim C3 -/

/-- C3 (counterexample): the claim fails as stated: on a start-path
file-append `Exec` whose `count` flag is non-numeric, a nil bound
channel yields the ServerError failure, not IllegalParameters, so the
claim only holds once the channel and environment preconditions are
met. -/
theorem C3_counterexample :
    (FileAppendActionExecutor.Exec ⟨none⟩ envT "u" ctxStart
        (flagMap [("count", "abc")])).1 =
      ReturnFail .serverError "channel is nil" ∧
    invalidPosInt "abc" = true ∧
    CodeType.serverError ≠ CodeType.illegalParameters := by decide

/-- C3 (amended): for a file-append `Exec` with a non-nil channel on a
host passing the environment check, on the start path, a non-empty
`count` or `interval` flag that does not Atoi-parse to an integer of at
least 1 yields an IllegalParameters failure and the channel Run is never
invoked. -/
theorem C3_bad_count_interval (ch : Channel) (env : Env) (uid : String) (ctx : Context)
    (model : ExpModel) (henv : checkAppendFileExpEnv env = none)
    (hctx : ctx.destroy = false)
    (hbad : invalidPosInt (model.actionFlags "count") = true ∨
            invalidPosInt (model.actionFlags "interval") = true) :
    (FileAppendActionExecutor.Exec ⟨some ch⟩ env uid ctx model).1.success = false ∧
    (FileAppendActionExecutor.Exec ⟨some ch⟩ env uid ctx model).1.code =
      CodeType.illegalParameters ∧
    (FileAppendActionExecutor.Exec ⟨some ch⟩ env uid ctx model).2 = [] := by
  rcases hbad with hb | hb
  · have hc := parsePositive_error "--count value must be a positive integer" hb
    simp [FileAppendActionExecutor.Exec, henv, hctx, hc, ReturnFail]
  · cases hpc : parsePositive (model.actionFlags "count")
        "--count value must be a positive integer" with
    | error m =>
      simp [FileAppendActionExecutor.Exec, henv, hctx, hpc, ReturnFail]
    | ok c =>
      have hi := parsePositive_error "--interval value must be a positive integer" hb
      simp [FileAppendActionExecutor.Exec, henv, hctx, hpc, hi, ReturnFail]

/-- C3 (witness): the amended statement at a concrete input with a
count flag of 0. -/
theorem C3_witness :
    checkAppendFileExpEnv envT = none ∧ ctxStart.destroy = false ∧
    invalidPosInt ((flagMap [("count", "0")]).actionFlags "count") = true ∧
    ((FileAppendActionExecutor.Exec ⟨some chD⟩ envT "u" ctxStart
        (flagMap [("count", "0")])).1.success = false ∧
     (FileAppendActionExecutor.Exec ⟨some chD⟩ envT "u" ctxStart
        (flagMap [("count", "0")])).1.code = CodeType.illegalParameters ∧
     (FileAppendActionExecutor.Exec ⟨some chD⟩ envT "u" ctxStart
        (flagMap [("count", "0")])).2 = []) :=
  ⟨by decide, rfl, by decide,
    C3_bad_count_interval chD envT "u" ctxStart (flagMap [("count", "0")])
      (by decide) rfl (Or.inl (by decide))⟩

/-! ## Claim C4 -/

/-- C4 (counterexample): the claim fails as stated: on a valid
file-append start request whose `count` flag is "2", the argument
string handed to Run carries the count value unquoted and does not
contain the count flag with its value enclosed in quotes. -/
theorem C4_counterexample :
    (FileAppendActionExecutor.Exec ⟨some chD⟩ envT "u" ctxStart
        (flagMap [("filepath", "/tmp/a.log"), ("content", "hi"), ("count", "2")])).2 =
      [⟨"/opt/chaosblade/bin/chaos_appendfile",
        "--start --filepath \"/tmp/a.log\" --content \"hi\" --count 2 --interval 1 --debug=false"⟩] ∧
    strHasSub
      "--start --filepath \"/tmp/a.log\" --content \"hi\" --count 2 --interval 1 --debug=false"
      " --count 2" ∧
    ¬ strHasSub
      "--start --filepath \"/tmp/a.log\" --content \"hi\" --count 2 --interval 1 --debug=false"
      "--count \"2\"" := by decide

/-- C4 (amended): for every valid start request, the argument string
handed to the channel Run begins with `--start` and contains every
supplied flag: string-valued flags (`process`, `process-cmd`,
`filepath`, `content`) appear with their value enclosed in quotes,
numeric flags (`count`, `interval`) appear with their parsed value
unquoted, boolean switches appear as `--name=true`; for process-stop,
when both matchers are supplied only `process` is serialized. -/
theorem C4_start_arguments :
    (∀ ch env uid ctx model, ctx.destroy = false →
      model.actionFlags "process" ≠ "" →
      ∃ args,
        (StopProcessExecutor.Exec ⟨some ch⟩ env uid ctx model).2 =
          [⟨goPathJoin ch.scriptPath StopProcessBin, args⟩] ∧
        strHasPre args "--start" ∧
        strHasSub args (" --process \"" ++ (model.actionFlags "process" ++ "\"")) ∧
        (model.actionFlags "ignore-not-found" = "true" →
          strHasSub args " --ignore-not-found=true")) ∧
    (∀ ch env uid ctx model, ctx.destroy = false →
      model.actionFlags "process" = "" → model.actionFlags "process-cmd" ≠ "" →
      ∃ args,
        (StopProcessExecutor.Exec ⟨some ch⟩ env uid ctx model).2 =
          [⟨goPathJoin ch.scriptPath StopProcessBin, args⟩] ∧
        strHasPre args "--start" ∧
        strHasSub args (" --process-cmd \"" ++ (model.actionFlags "process-cmd" ++ "\"")) ∧
        (model.actionFlags "ignore-not-found" = "true" →
          strHasSub args " --ignore-not-found=true")) ∧
    (∀ ch env uid ctx model c i, checkAppendFileExpEnv env = none → ctx.destroy = false →
      parsePositive (model.actionFlags "count")
        "--count value must be a positive integer" = .ok c →
      parsePositive (model.actionFlags "interval")
        "--interval value must be a positive integer" = .ok i →
      env.fileExists (model.actionFlags "filepath") = true →
      ∃ args,
        (FileAppendActionExecutor.Exec ⟨some ch⟩ env uid ctx model).2 =
          [⟨goPathJoin ch.scriptPath AppendFileBin, args⟩] ∧
        strHasPre args "--start" ∧
        strHasSub args (" --filepath \"" ++ (model.actionFlags "filepath" ++ "\"")) ∧
        strHasSub args (" --content \"" ++ (model.actionFlags "content" ++ "\"")) ∧
        strHasSub args (" --count " ++ toString c) ∧
        strHasSub args (" --interval " ++ toString i) ∧
        (model.actionFlags "escape" = "true" → strHasSub args " --escape=true") ∧
        (model.actionFlags "enable-base64" = "true" →
          strHasSub args " --enable-base64=true")) := by
  refine ⟨?_, ?_, ?_⟩
  · intro ch env uid ctx model hctx hp
    rw [stopProcess_Exec_start ch env uid ctx model hctx (fun hand => hp hand.1)]
    refine ⟨_, rfl, strHasPre_of_eq rfl, ?_, ?_⟩
    · rw [stopProcessFlags_eq_pos env.debug _ _ _ hp]
      exact strHasSub_appL _ (strHasSub_appL _ (strHasSub_appL _
        (strHasSub_appR _ (strHasSub_self _))))
    · intro hig
      rw [hig]
      rw [show (("true" : String) == "true") = true from rfl]
      rw [stopProcessFlags_pos_ignore env.debug _ _ hp]
      exact strHasSub_appL _ (strHasSub_appL _ (strHasSub_appL _
        (strHasSub_appL _ (strHasSub_self _))))
  · intro ch env uid ctx model hctx hp hpc
    rw [stopProcess_Exec_start ch env uid ctx model hctx (fun hand => hpc hand.2)]
    refine ⟨_, rfl, strHasPre_of_eq rfl, ?_, ?_⟩
    · rw [stopProcessFlags_eq_cmd env.debug _ _ _ hp hpc]
      exact strHasSub_appL _ (strHasSub_appL _ (strHasSub_appL _
        (strHasSub_appR _ (strHasSub_self _))))
    · intro hig
      rw [hig]
      rw [show (("true" : String) == "true") = true from rfl]
      rw [stopProcessFlags_cmd_ignore env.debug _ _ hp hpc]
      exact strHasSub_appL _ (strHasSub_appL _ (strHasSub_appL _
        (strHasSub_appL _ (strHasSub_self _))))
  · intro ch env uid ctx model c i henv hctx hcnt hint hfile
    rw [fileAppend_Exec_start ch env uid ctx model c i henv hctx hcnt hint hfile]
    refine ⟨_, rfl, ?_, ?_, ?_, ?_, ?_, ?_, ?_⟩
    · rw [fileAppendStartFlags_eq]
      exact strHasPre_of_eq rfl
    · rw [fileAppendStartFlags_eq]
      exact strHasSub_appL _ (strHasSub_appR _ (strHasSub_self _))
    · rw [fileAppendStartFlags_eq]
      exact strHasSub_appL _ (strHasSub_appL _ (strHasSub_appR _ (strHasSub_self _)))
    · rw [fileAppendStartFlags_eq]
      exact strHasSub_appL _ (strHasSub_appL _ (strHasSub_appL _
        (strHasSub_appR _ (strHasSub_self _))))
    · rw [fileAppendStartFlags_eq]
      exact strHasSub_appL _ (strHasSub_appL _ (strHasSub_appL _ (strHasSub_appL _
        (strHasSub_appR _ (strHasSub_self _)))))
    · intro hesc
      rw [fileAppendStartFlags_eq, hesc]
      rw [show (("true" : String) == "true") = true from rfl, if_pos rfl]
      exact strHasSub_appL _ (strHasSub_appL _ (strHasSub_appL _ (strHasSub_appL _
        (strHasSub_appL _ (strHasSub_appL _ (strHasSub_appR _ (strHasSub_self _)))))))
    · intro hb64
      rw [fileAppendStartFlags_eq, hb64]
      rw [show (("true" : String) == "true") = true from rfl, if_pos rfl]
      exact strHasSub_appL _ (strHasSub_appL _ (strHasSub_appL _ (strHasSub_appL _
        (strHasSub_appL _ (strHasSub_appL _ (strHasSub_appL _ (strHasSub_self _)))))))

/-- C4 (witness): the amended statement at a concrete process-stop
input with both configured flags supplied. -/
theorem C4_witness :
    ctxStart.destroy = false ∧
    (flagMap [("process", "demo"), ("ignore-not-found", "true")]).actionFlags "process" ≠ "" ∧
    (∃ args,
      (StopProcessExecutor.Exec ⟨some chD⟩ envT "u" ctxStart
          (flagMap [("process", "demo"), ("ignore-not-found", "true")])).2 =
        [⟨goPathJoin chD.scriptPath StopProcessBin, args⟩] ∧
      strHasPre args "--start" ∧
      strHasSub args (" --process \"" ++
        ((flagMap [("process", "demo"), ("ignore-not-found", "true")]).actionFlags "process"
          ++ "\"")) ∧
      ((flagMap [("process", "demo"), ("ignore-not-found", "true")]).actionFlags
          "ignore-not-found" = "true" →
        strHasSub args " --ignore-not-found=true")) :=
  ⟨rfl, by decide,
    C4_start_arguments.1 chD envT "u" ctxStart
      (flagMap [("process", "demo"), ("ignore-not-found", "true")]) rfl (by decide)⟩

/-! ## Claim C5 -/

/-- C5: for every file-append `Exec` invocation carrying a destroy
marker, with a non-nil channel and a passing environment check, the
argument string handed to Run begins with `--stop` and contains the
filepath flag, and the whole result is independent of the `content`,
`count` and `interval` flag values, which are not serialized. -/
theorem C5_destroy_arguments (ch : Channel) (env : Env) (uid : String) (ctx : Context)
    (model : ExpModel) (henv : checkAppendFileExpEnv env = none)
    (hctx : ctx.destroy = true) :
    (FileAppendActionExecutor.Exec ⟨some ch⟩ env uid ctx model).2 =
      [⟨goPathJoin ch.scriptPath AppendFileBin,
        fileAppendStopArgs env.debug (model.actionFlags "filepath")⟩] ∧
    strHasPre (fileAppendStopArgs env.debug (model.actionFlags "filepath")) "--stop" ∧
    strHasSub (fileAppendStopArgs env.debug (model.actionFlags "filepath")) "--filepath " ∧
    (∀ model2 : ExpModel,
      model2.actionFlags "filepath" = model.actionFlags "filepath" →
      FileAppendActionExecutor.Exec ⟨some ch⟩ env uid ctx model2 =
      FileAppendActionExecutor.Exec ⟨some ch⟩ env uid ctx model) := by
  refine ⟨?_, ?_, ?_, ?_⟩
  · rw [fileAppend_Exec_destroy ch env uid ctx model henv hctx]
  · exact strHasPre_of_eq (str_assoc _ _ _)
  · exact strHasSub_appR _ (strHasSub_appL _ (strHasSub_appL _
      (strHasSub_appR _ (strHasSub_self _))))
  · intro model2 hfp
    rw [fileAppend_Exec_destroy ch env uid ctx model2 henv hctx,
      fileAppend_Exec_destroy ch env uid ctx model henv hctx, hfp]

/-- C5 (witness): the statement at the concrete input of the spec
end-to-end example, whose stop argument string is
`--stop --filepath /tmp/a.log --debug=false`. -/
theorem C5_witness :
    checkAppendFileExpEnv envT = none ∧ ctxDestroy.destroy = true ∧
    fileAppendStopArgs envT.debug
      ((flagMap [("filepath", "/tmp/a.log"), ("content", "hi")]).actionFlags "filepath") =
      "--stop --filepath /tmp/a.log --debug=false" ∧
    ((FileAppendActionExecutor.Exec ⟨some chD⟩ envT "u" ctxDestroy
        (flagMap [("filepath", "/tmp/a.log"), ("content", "hi")])).2 =
      [⟨goPathJoin chD.scriptPath AppendFileBin,
        fileAppendStopArgs envT.debug
          ((flagMap [("filepath", "/tmp/a.log"), ("content", "hi")]).actionFlags
            "filepath")⟩] ∧
     strHasPre (fileAppendStopArgs envT.debug
       ((flagMap [("filepath", "/tmp/a.log"), ("content", "hi")]).actionFlags "filepath"))
       "--stop" ∧
     strHasSub (fileAppendStopArgs envT.debug
       ((flagMap [("filepath", "/tmp/a.log"), ("content", "hi")]).actionFlags "filepath"))
       "--filepath " ∧
     (∀ model2 : ExpModel,
       model2.actionFlags "filepath" =
         (flagMap [("filepath", "/tmp/a.log"), ("content", "hi")]).actionFlags "filepath" →
       FileAppendActionExecutor.Exec ⟨some chD⟩ envT "u" ctxDestroy model2 =
       FileAppendActionExecutor.Exec ⟨some chD⟩ envT "u" ctxDestroy
         (flagMap [("filepath", "/tmp/a.log"), ("content", "hi")]))) :=
  ⟨by decide, rfl, by decide,
    C5_destroy_arguments chD envT "u" ctxDestroy
      (flagMap [("filepath", "/tmp/a.log"), ("content", "hi")]) (by decide) rfl⟩

/-! ## Claim C6 -/

/-- C6: a process-stop `Exec` with a non-nil channel, the `process` flag
set to SimpleHTTPServer, no other flag, no destroy marker and debug off
invokes Run with the executable joined from the channel script path and
`chaos_stopprocess`, and with exactly the argument string of the spec
example. -/
theorem C6_process_stop_example (ch : Channel) (env : Env) (uid : String) (ctx : Context)
    (model : ExpModel) (hd : env.debug = false) (hctx : ctx.destroy = false)
    (hp : model.actionFlags "process" = "SimpleHTTPServer")
    (hpc : model.actionFlags "process-cmd" = "")
    (hig : model.actionFlags "ignore-not-found" = "") :
    StopProcessExecutor.Exec ⟨some ch⟩ env uid ctx model =
      (ch.run ctx (goPathJoin ch.scriptPath "chaos_stopprocess")
        "--start --debug=false --process \"SimpleHTTPServer\"",
       [⟨goPathJoin ch.scriptPath "chaos_stopprocess",
         "--start --debug=false --process \"SimpleHTTPServer\""⟩]) := by
  have hv : ¬(model.actionFlags "process" = "" ∧ model.actionFlags "process-cmd" = "") := by
    rw [hp]
    rintro ⟨h1, -⟩
    exact absurd h1 (by decide)
  rw [stopProcess_Exec_start ch env uid ctx model hctx hv, hp, hpc, hig, hd]
  have hargs :
      "--start" ++ (" " ++ stopProcessFlags false "SimpleHTTPServer" "" ("" == "true")) =
      "--start --debug=false --process \"SimpleHTTPServer\"" := by decide
  rw [hargs]
  rfl

/-- C6 (witness): the statement at fully concrete inputs. -/
theorem C6_witness :
    envT.debug = false ∧ ctxStart.destroy = false ∧
    (flagMap [("process", "SimpleHTTPServer")]).actionFlags "process" = "SimpleHTTPServer" ∧
    StopProcessExecutor.Exec ⟨some chD⟩ envT "u" ctxStart
        (flagMap [("process", "SimpleHTTPServer")]) =
      (chD.run ctxStart (goPathJoin chD.scriptPath "chaos_stopprocess")
        "--start --debug=false --process \"SimpleHTTPServer\"",
       [⟨goPathJoin chD.scriptPath "chaos_stopprocess",
         "--start --debug=false --process \"SimpleHTTPServer\""⟩]) :=
  ⟨rfl, rfl, by decide,
    C6_process_stop_example chD envT "u" ctxStart (flagMap [("process", "SimpleHTTPServer")])
      rfl rfl (by decide) (by decide) (by decide)⟩

/-! ## Claim C7 -/

/-- C7: whenever all local validations pass, the response returned by
`Exec` is exactly the response of the channel Run call — the invocation
trace has exactly one Run call, and the returned response is the value
Run produced for it, unaltered — for process-stop (both phases),
file-append destroy and file-append start. -/
theorem C7_passthrough :
    (∀ ch env uid ctx model,
      ¬(model.actionFlags "process" = "" ∧ model.actionFlags "process-cmd" = "") →
      ∃ p args,
        StopProcessExecutor.Exec ⟨some ch⟩ env uid ctx model =
          (ch.run ctx p args, [⟨p, args⟩])) ∧
    (∀ ch env uid ctx model, checkAppendFileExpEnv env = none → ctx.destroy = true →
      ∃ p args,
        FileAppendActionExecutor.Exec ⟨some ch⟩ env uid ctx model =
          (ch.run ctx p args, [⟨p, args⟩])) ∧
    (∀ ch env uid ctx model c i, checkAppendFileExpEnv env = none → ctx.destroy = false →
      parsePositive (model.actionFlags "count")
        "--count value must be a positive integer" = .ok c →
      parsePositive (model.actionFlags "interval")
        "--interval value must be a positive integer" = .ok i →
      env.fileExists (model.actionFlags "filepath") = true →
      ∃ p args,
        FileAppendActionExecutor.Exec ⟨some ch⟩ env uid ctx model =
          (ch.run ctx p args, [⟨p, args⟩])) := by
  refine ⟨?_, ?_, ?_⟩
  · intro ch env uid ctx model hv
    cases hd : ctx.destroy with
    | true => exact ⟨_, _, stopProcess_Exec_destroy ch env uid ctx model hd hv⟩
    | false => exact ⟨_, _, stopProcess_Exec_start ch env uid ctx model hd hv⟩
  · intro ch env uid ctx model henv hctx
    exact ⟨_, _, fileAppend_Exec_destroy ch env uid ctx model henv hctx⟩
  · intro ch env uid ctx model c i henv hctx hcnt hint hfile
    exact ⟨_, _, fileAppend_Exec_start ch env uid ctx model c i henv hctx hcnt hint hfile⟩

/-- C7 (witness): the file-append destroy part at a concrete input. -/
theorem C7_witness :
    checkAppendFileExpEnv envT = none ∧ ctxDestroy.destroy = true ∧
    (∃ p args,
      FileAppendActionExecutor.Exec ⟨some chD⟩ envT "u" ctxDestroy
          (flagMap [("filepath", "/tmp/a.log")]) =
        (chD.run ctxDestroy p args, [⟨p, args⟩])) :=
  ⟨by decide, rfl,
    C7_passthrough.2.1 chD envT "u" ctxDestroy (flagMap [("filepath", "/tmp/a.log")])
      (by decide) rfl⟩

/-! ## Claim C8 -/

/-- C8: flag-string construction is a deterministic function of the
validated flag values and the global debug flag — the argument string of
the Run invocation is exactly `stopProcessFlags`, respectively
`fileAppendStartFlags`, applied to those values — and each serialization
has a fixed order with the action primary matcher first among the
mapping flags, followed by the optional modifier flags (the
`--debug` passthrough is a fixed template element, not a mapping
flag). -/
theorem C8_fixed_order :
    (∀ ch env uid ctx model, ctx.destroy = false →
      ¬(model.actionFlags "process" = "" ∧ model.actionFlags "process-cmd" = "") →
      (StopProcessExecutor.Exec ⟨some ch⟩ env uid ctx model).2 =
        [⟨goPathJoin ch.scriptPath StopProcessBin,
          "--start" ++ (" " ++ stopProcessFlags env.debug (model.actionFlags "process")
            (model.actionFlags "process-cmd")
            (model.actionFlags "ignore-not-found" == "true"))⟩]) ∧
    (∀ ch env uid ctx model c i, checkAppendFileExpEnv env = none → ctx.destroy = false →
      parsePositive (model.actionFlags "count")
        "--count value must be a positive integer" = .ok c →
      parsePositive (model.actionFlags "interval")
        "--interval value must be a positive integer" = .ok i →
      env.fileExists (model.actionFlags "filepath") = true →
      (FileAppendActionExecutor.Exec ⟨some ch⟩ env uid ctx model).2 =
        [⟨goPathJoin ch.scriptPath AppendFileBin,
          fileAppendStartFlags env.debug (model.actionFlags "filepath")
            (model.actionFlags "content") c i (model.actionFlags "escape" == "true")
            (model.actionFlags "enable-base64" == "true")⟩]) ∧
    (∀ debug p pc ig, p ≠ "" →
      stopProcessFlags debug p pc ig =
        ("--debug=" ++ goBool debug) ++ ((" --process \"" ++ (p ++ "\"")) ++
          (if ig then " --ignore-not-found=" ++ goBool ig else ""))) ∧
    (∀ debug p pc ig, p = "" → pc ≠ "" →
      stopProcessFlags debug p pc ig =
        ("--debug=" ++ goBool debug) ++ ((" --process-cmd \"" ++ (pc ++ "\"")) ++
          (if ig then " --ignore-not-found=" ++ goBool ig else ""))) ∧
    (∀ debug fp c cnt itv esc b64,
      fileAppendStartFlags debug fp c cnt itv esc b64 =
        "--start" ++ ((" --filepath \"" ++ (fp ++ "\"")) ++ ((" --content \"" ++ (c ++ "\"")) ++
          ((" --count " ++ toString cnt) ++ ((" --interval " ++ toString itv) ++
            ((" --debug=" ++ goBool debug) ++ ((if esc then " --escape=true" else "") ++
              (if b64 then " --enable-base64=true" else "")))))))) := by
  refine ⟨?_, ?_, ?_, ?_, ?_⟩
  · intro ch env uid ctx model hctx hv
    rw [stopProcess_Exec_start ch env uid ctx model hctx hv]
  · intro ch env uid ctx model c i henv hctx hcnt hint hfile
    rw [fileAppend_Exec_start ch env uid ctx model c i henv hctx hcnt hint hfile]
  · intro debug p pc ig hp
    exact stopProcessFlags_eq_pos debug p pc ig hp
  · intro debug p pc ig hp hpc
    exact stopProcessFlags_eq_cmd debug p pc ig hp hpc
  · intro debug fp c cnt itv esc b64
    exact fileAppendStartFlags_eq debug fp c cnt itv esc b64

/-- C8 (witness): the process-stop serialization part at concrete
values. -/
theorem C8_witness :
    ("demo" : String) ≠ "" ∧
    stopProcessFlags false "demo" "" true =
      ("--debug=" ++ goBool false) ++ ((" --process \"" ++ ("demo" ++ "\"")) ++
        (if true then " --ignore-not-found=" ++ goBool true else "")) :=
  ⟨by decide, C8_fixed_order.2.2.1 false "demo" "" true (by decide)⟩

/-! ## Claim C9 -/

/-- C9 (counterexample): the claim fails as stated: with a nil bound
channel, count and interval validating and a filepath that does not
exist on the host, the file-append `Exec` returns ServerError, not
IllegalParameters, so the claim only holds once the channel and
environment preconditions are met. -/
theorem C9_counterexample :
    (FileAppendActionExecutor.Exec ⟨none⟩ envNoFile "u" ctxStart
        (flagMap [("filepath", "/tmp/a.log"), ("content", "hi")])).1 =
      ReturnFail .serverError "channel is nil" ∧
    envNoFile.fileExists "/tmp/a.log" = false ∧
    CodeType.serverError ≠ CodeType.illegalParameters := by decide

/-- C9 (amended): for a file-append `Exec` with a non-nil channel on a
host passing the environment check, on the start path with validating
count and interval, a filepath that does not exist yields an
IllegalParameters failure whose message names that path, with no Run
invocation; on the destroy path the result never depends on file
existence. -/
theorem C9_file_not_exist (ch : Channel) (env : Env) (uid : String) (ctx : Context)
    (model : ExpModel) (c i : Int) (henv : checkAppendFileExpEnv env = none)
    (hctx : ctx.destroy = false)
    (hcnt : parsePositive (model.actionFlags "count")
      "--count value must be a positive integer" = .ok c)
    (hint : parsePositive (model.actionFlags "interval")
      "--interval value must be a positive integer" = .ok i)
    (hfile : env.fileExists (model.actionFlags "filepath") = false) :
    FileAppendActionExecutor.Exec ⟨some ch⟩ env uid ctx model =
      (ReturnFail .illegalParameters
        ("the " ++ (model.actionFlags "filepath" ++ " file does not exist")), []) ∧
    strHasSub ("the " ++ (model.actionFlags "filepath" ++ " file does not exist"))
      (model.actionFlags "filepath") ∧
    (∀ (fe : String → Bool) (ctx2 : Context) (model2 : ExpModel), ctx2.destroy = true →
      FileAppendActionExecutor.Exec ⟨some ch⟩ ⟨env.debug, env.commandAvailable, fe⟩
        uid ctx2 model2 =
      FileAppendActionExecutor.Exec ⟨some ch⟩ env uid ctx2 model2) := by
  refine ⟨?_, ?_, ?_⟩
  · simp [FileAppendActionExecutor.Exec, henv, hctx, hcnt, hint, hfile]
  · exact strHasSub_of_eq rfl
  · intro fe ctx2 model2 hd2
    have henv2 : checkAppendFileExpEnv ⟨env.debug, env.commandAvailable, fe⟩ = none := henv
    rw [fileAppend_Exec_destroy ch ⟨env.debug, env.commandAvailable, fe⟩ uid ctx2 model2
        henv2 hd2,
      fileAppend_Exec_destroy ch env uid ctx2 model2 henv hd2]

/-- C9 (witness): the amended statement at a concrete input. -/
theorem C9_witness :
    checkAppendFileExpEnv envNoFile = none ∧ ctxStart.destroy = false ∧
    parsePositive ((flagMap [("filepath", "/tmp/a.log"), ("content", "hi")]).actionFlags
      "count") "--count value must be a positive integer" = .ok 1 ∧
    envNoFile.fileExists ((flagMap [("filepath", "/tmp/a.log"), ("content", "hi")]).actionFlags
      "filepath") = false ∧
    (FileAppendActionExecutor.Exec ⟨some chD⟩ envNoFile "u" ctxStart
        (flagMap [("filepath", "/tmp/a.log"), ("content", "hi")])).1 =
      ReturnFail .illegalParameters "the /tmp/a.log file does not exist" :=
  ⟨by decide, rfl, rfl, rfl, by
    have h := (C9_file_not_exist chD envNoFile "u" ctxStart
      (flagMap [("filepath", "/tmp/a.log"), ("content", "hi")]) 1 1 (by decide) rfl
      rfl rfl rfl).1
    rw [h]
    decide⟩

/-! ## Claim C10 -/

/-- C10 (counterexample): the claim fails as stated: a destroy-marked
file-append `Exec` with a nil bound channel never reaches the channel
Run, returning the ServerError failure with an empty invocation trace
instead. -/
theorem C10_counterexample :
    FileAppendActionExecutor.Exec ⟨none⟩ envT "u" ctxDestroy (flagMap [("count", "abc")]) =
      (ReturnFail .serverError "channel is nil", []) := by decide

/-- C10 (amended): for every file-append `Exec` carrying a destroy
marker, with a non-nil channel and a passing environment check, Run is
invoked without validating any flag: the result depends only on the
filepath flag value — never on content, count or interval, nor on file
existence — so a destroy request with a non-numeric count or an empty
filepath still reaches the channel. -/
theorem C10_destroy_unvalidated (ch : Channel) (env : Env) (uid : String) (ctx : Context)
    (model : ExpModel) (henv : checkAppendFileExpEnv env = none)
    (hctx : ctx.destroy = true) :
    FileAppendActionExecutor.Exec ⟨some ch⟩ env uid ctx model =
      (ch.run ctx (goPathJoin ch.scriptPath AppendFileBin)
        (fileAppendStopArgs env.debug (model.actionFlags "filepath")),
       [⟨goPathJoin ch.scriptPath AppendFileBin,
         fileAppendStopArgs env.debug (model.actionFlags "filepath")⟩]) ∧
    (∀ model2 : ExpModel,
      model2.actionFlags "filepath" = model.actionFlags "filepath" →
      FileAppendActionExecutor.Exec ⟨some ch⟩ env uid ctx model2 =
      FileAppendActionExecutor.Exec ⟨some ch⟩ env uid ctx model) ∧
    (∀ fe : String → Bool,
      FileAppendActionExecutor.Exec ⟨some ch⟩ ⟨env.debug, env.commandAvailable, fe⟩
        uid ctx model =
      FileAppendActionExecutor.Exec ⟨some ch⟩ env uid ctx model) := by
  refine ⟨fileAppend_Exec_destroy ch env uid ctx model henv hctx, ?_, ?_⟩
  · intro model2 hfp
    rw [fileAppend_Exec_destroy ch env uid ctx model2 henv hctx,
      fileAppend_Exec_destroy ch env uid ctx model henv hctx, hfp]
  · intro fe
    have henv2 : checkAppendFileExpEnv ⟨env.debug, env.commandAvailable, fe⟩ = none := henv
    rw [fileAppend_Exec_destroy ch ⟨env.debug, env.commandAvailable, fe⟩ uid ctx model
        henv2 hctx,
      fileAppend_Exec_destroy ch env uid ctx model henv hctx]

/-- C10 (witness): the amended statement at a concrete destroy request
whose count flag is non-numeric and whose filepath flag is empty. -/
theorem C10_witness :
    checkAppendFileExpEnv envT = none ∧ ctxDestroy.destroy = true ∧
    FileAppendActionExecutor.Exec ⟨some chD⟩ envT "u" ctxDestroy
        (flagMap [("count", "abc")]) =
      (chD.run ctxDestroy (goPathJoin chD.scriptPath AppendFileBin)
        (fileAppendStopArgs envT.debug ((flagMap [("count", "abc")]).actionFlags "filepath")),
       [⟨goPathJoin chD.scriptPath AppendFileBin,
         fileAppendStopArgs envT.debug
           ((flagMap [("count", "abc")]).actionFlags "filepath")⟩]) :=
  ⟨by decide, rfl,
    (C10_destroy_unvalidated chD envT "u" ctxDestroy (flagMap [("count", "abc")])
      (by decide) rfl).1⟩

end CB
